import Mathlib

/-!
Verification of the file-format resource of a Terraform provider for a
cloud data warehouse.  The Go sources are embedded shallowly: strings are
Lean `String`s, the statement builder is a structure with one field per
builder field, fallible operations return `Except` or pair an `Option`al
error with their result, and the semantics of the Go standard-library
helpers that the code calls (`strings.Trim`, `strings.Split`,
`strconv.ParseBool`, `strconv.Atoi`, `encoding/csv`) are reproduced as
executable definitions.
-/

set_option maxHeartbeats 1000000

/-! ## Go standard library helpers -/

/-- The backslash character. -/
def backslashChar : Char := '\\'

/-- The single-quote character. -/
def squoteChar : Char := Char.ofNat 39

/-- `unicode.IsSpace` from the Go standard library: the set of Unicode
white-space characters recognised by `strings.TrimSpace`. -/
def isGoSpace (c : Char) : Bool :=
  c = ' ' ∨ c = '\t' ∨ c = '\n' ∨ c = '\x0b' ∨ c = '\x0c' ∨ c = '\r' ∨
  c = '\x85' ∨ c = '\xA0' ∨ c = '\u1680' ∨ ('\u2000' ≤ c ∧ c ≤ '\u200A') ∨
  c = '\u2028' ∨ c = '\u2029' ∨ c = '\u202F' ∨ c = '\u205F' ∨ c = '\u3000'

/-- `strings.TrimSpace` on a character list: drop Unicode white space from
both ends. -/
def goTrimSpaceList (cs : List Char) : List Char :=
  ((cs.dropWhile isGoSpace).reverse.dropWhile isGoSpace).reverse

/-- `strings.Trim(s, cutset)` on a character list: drop characters of the
cutset from both ends. -/
def goTrimList (cs : List Char) (cut : List Char) : List Char :=
  ((cs.dropWhile (cut.contains ·)).reverse.dropWhile (cut.contains ·)).reverse

/-- `strings.Split` with a single-character separator: auxiliary loop
carrying the current (reversed) chunk. -/
def splitCharAux (sep : Char) : List Char → List Char → List (List Char)
  | [], acc => [acc.reverse]
  | c :: rest, acc =>
    if c = sep then acc.reverse :: splitCharAux sep rest []
    else splitCharAux sep rest (c :: acc)

/-- `strings.Split(s, sep)` for a one-character separator. -/
def splitChar (cs : List Char) (sep : Char) : List (List Char) :=
  splitCharAux sep cs []

/-- `strings.Join(elems, sep)`. -/
def goJoin : List String → String → String
  | [], _ => ""
  | [s], _ => s
  | s :: rest, sep => s ++ sep ++ goJoin rest sep

/-- Go `fmt` rendering of a `bool` with the `%v` verb. -/
def goBoolString (b : Bool) : String := if b then "true" else "false"

/-- Go `fmt` rendering of an `int` with the `%v` verb (decimal, `-` sign). -/
def goIntString (n : Int) : String := toString n

/-- `strconv.ParseBool`: accepts exactly the twelve literal spellings. -/
def goParseBool (s : String) : Option Bool :=
  if s = "1" ∨ s = "t" ∨ s = "T" ∨ s = "true" ∨ s = "TRUE" ∨ s = "True" then
    some true
  else if s = "0" ∨ s = "f" ∨ s = "F" ∨ s = "false" ∨ s = "FALSE" ∨ s = "False" then
    some false
  else none

/-- Decimal digit test. -/
def isDigitChar (c : Char) : Bool := '0' ≤ c ∧ c ≤ '9'

/-- Value of a decimal digit string. -/
def digitsToNat (ds : List Char) : Nat :=
  ds.foldl (fun n c => 10 * n + (c.toNat - '0'.toNat)) 0

/-- `strconv.Atoi`: optional sign followed by at least one decimal digit,
failing on any other character and on 64-bit overflow. -/
def goAtoi (s : String) : Option Int :=
  match s.data with
  | [] => none
  | cs =>
    let signDigits : Bool × List Char :=
      match cs with
      | '+' :: rest => (false, rest)
      | '-' :: rest => (true, rest)
      | rest => (false, rest)
    let neg := signDigits.1
    let ds := signDigits.2
    if ds = [] ∨ ¬ ds.all isDigitChar then none
    else
      let v : Int := if neg then -(digitsToNat ds : Int) else (digitsToNat ds : Int)
      if v < -(2 ^ 63) ∨ v > 2 ^ 63 - 1 then none else some v

/-! ## The shared escape utility

The functions `EscapeString` and `UnescapeString` live in a file of this
repository that is not part of the extract; they are modelled from the
spec here. -/

/-- `strings.Replace(s, backslash, double backslash, -1)`: double every
backslash, scanning left to right. -/
def escapeBackslashes : List Char → List Char
  | [] => []
  | c :: rest =>
    if c = backslashChar then backslashChar :: backslashChar :: escapeBackslashes rest
    else c :: escapeBackslashes rest

/-- `strings.Replace(s, quote, backslash quote, -1)`: put a backslash in
front of every single quote. -/
def escapeSingleQuotes : List Char → List Char
  | [] => []
  | c :: rest =>
    if c = squoteChar then backslashChar :: squoteChar :: escapeSingleQuotes rest
    else c :: escapeSingleQuotes rest

/-- Modelled from the spec: `EscapeString` (missing from the extract)
escapes a value for embedding in generated SQL, doubling backslashes and
escaping single quotes, in that order. -/
def EscapeString (s : String) : String :=
  String.mk (escapeSingleQuotes (escapeBackslashes s.data))

/-- Left-to-right, non-overlapping replacement of a double backslash by a
single one. -/
def collapseBackslashes : List Char → List Char
  | '\\' :: '\\' :: rest => '\\' :: collapseBackslashes rest
  | c :: rest => c :: collapseBackslashes rest
  | [] => []

/-- Left-to-right, non-overlapping replacement of backslash-quote by a
bare quote. -/
def dropQuoteEscapes : List Char → List Char
  | '\\' :: '\x27' :: rest => '\x27' :: dropQuoteEscapes rest
  | c :: rest => c :: dropQuoteEscapes rest
  | [] => []

/-- Modelled from the spec: `UnescapeString` (missing from the extract)
reverses `EscapeString`, collapsing doubled backslashes and unescaping
single quotes, in that order. -/
def UnescapeString (s : String) : String :=
  String.mk (dropQuoteEscapes (collapseBackslashes s.data))

/-! ## The statement builder (`FileFormatBuilder`) -/

/-- The builder carrying the qualified name and every configurable
property, with the explicit was-set flags of the Go struct. -/
@[ext]
structure FileFormatBuilder where
  name : String
  db : String
  schema : String
  fileFormatType : String := ""
  comment : String := ""
  compression : String := ""
  setBinaryAsText : Bool := false
  binaryAsText : Bool := false
  setTrimSpace : Bool := false
  trimSpace : Bool := false
  nullIf : List String := []
  recordDelimiter : String := ""
  fieldDelimiter : String := ""
  fileExtension : String := ""
  setSkipHeader : Bool := false
  skipHeader : Int := 0
  setSkipBlankLines : Bool := false
  skipBlankLines : Bool := false
  dateFormat : String := ""
  timeFormat : String := ""
  timestampFormat : String := ""
  binaryFormat : String := ""
  escape : String := ""
  escapeUnenclosedField : String := ""
  fieldOptionallyEnclosedBy : String := ""
  setErrorOnColumnCountMismatch : Bool := false
  errorOnColumnCountMismatch : Bool := false
  setReplaceInvalidCharacters : Bool := false
  replaceInvalidCharacters : Bool := false
  setValidateUtf8 : Bool := false
  validateUtf8 : Bool := false
  setEmptyFieldAsNull : Bool := false
  emptyFieldAsNull : Bool := false
  setSkipByteOrderMark : Bool := false
  skipByteOrderMark : Bool := false
  encoding : String := ""
  deriving Repr, DecidableEq

/-- `FileFormat(name, db, schema)`: a fresh builder. -/
def FileFormat (name db schema : String) : FileFormatBuilder :=
  { name := name, db := db, schema := schema }

/-- `QualifiedName` wraps each component in double quotes and joins them
with dots. -/
def FileFormatBuilder.QualifiedName (fb : FileFormatBuilder) : String :=
  "\"" ++ fb.db ++ "\".\"" ++ fb.schema ++ "\".\"" ++ fb.name ++ "\""

def FileFormatBuilder.WithType (fb : FileFormatBuilder) (t : String) : FileFormatBuilder :=
  { fb with fileFormatType := t }

def FileFormatBuilder.WithComment (fb : FileFormatBuilder) (comment : String) : FileFormatBuilder :=
  { fb with comment := comment }

def FileFormatBuilder.WithCompression (fb : FileFormatBuilder) (compression : String) : FileFormatBuilder :=
  { fb with compression := compression }

def FileFormatBuilder.WithBinaryAsText (fb : FileFormatBuilder) (binaryAsText : Bool) : FileFormatBuilder :=
  { fb with setBinaryAsText := true, binaryAsText := binaryAsText }

def FileFormatBuilder.WithTrimSpace (fb : FileFormatBuilder) (trimSpace : Bool) : FileFormatBuilder :=
  { fb with setTrimSpace := true, trimSpace := trimSpace }

def FileFormatBuilder.WithNullIf (fb : FileFormatBuilder) (nullIf : List String) : FileFormatBuilder :=
  { fb with nullIf := nullIf }

def FileFormatBuilder.WithRecordDelimiter (fb : FileFormatBuilder) (recordDelimiter : String) : FileFormatBuilder :=
  { fb with recordDelimiter := recordDelimiter }

def FileFormatBuilder.WithFieldDelimiter (fb : FileFormatBuilder) (fieldDelimiter : String) : FileFormatBuilder :=
  { fb with fieldDelimiter := fieldDelimiter }

def FileFormatBuilder.WithFileExtension (fb : FileFormatBuilder) (fileExtension : String) : FileFormatBuilder :=
  { fb with fileExtension := fileExtension }

def FileFormatBuilder.WithSkipHeader (fb : FileFormatBuilder) (skipHeader : Int) : FileFormatBuilder :=
  { fb with setSkipHeader := true, skipHeader := skipHeader }

def FileFormatBuilder.WithSkipBlankLines (fb : FileFormatBuilder) (skipBlankLines : Bool) : FileFormatBuilder :=
  { fb with setSkipBlankLines := true, skipBlankLines := skipBlankLines }

def FileFormatBuilder.WithDateFormat (fb : FileFormatBuilder) (dateFormat : String) : FileFormatBuilder :=
  { fb with dateFormat := dateFormat }

def FileFormatBuilder.WithTimeFormat (fb : FileFormatBuilder) (timeFormat : String) : FileFormatBuilder :=
  { fb with timeFormat := timeFormat }

def FileFormatBuilder.WithTimestampFormat (fb : FileFormatBuilder) (timestampFormat : String) : FileFormatBuilder :=
  { fb with timestampFormat := timestampFormat }

def FileFormatBuilder.WithBinaryFormat (fb : FileFormatBuilder) (binaryFormat : String) : FileFormatBuilder :=
  { fb with binaryFormat := binaryFormat }

def FileFormatBuilder.WithEscape (fb : FileFormatBuilder) (escape : String) : FileFormatBuilder :=
  { fb with escape := escape }

def FileFormatBuilder.WithEscapeUnenclosedField (fb : FileFormatBuilder) (escapeUnenclosedField : String) : FileFormatBuilder :=
  { fb with escapeUnenclosedField := escapeUnenclosedField }

def FileFormatBuilder.WithFieldOptionallyEnclosedBy (fb : FileFormatBuilder) (fieldOptionallyEnclosedBy : String) : FileFormatBuilder :=
  { fb with fieldOptionallyEnclosedBy := fieldOptionallyEnclosedBy }

def FileFormatBuilder.WithErrorOnColumnCountMismatch (fb : FileFormatBuilder) (errorOnColumnCountMismatch : Bool) : FileFormatBuilder :=
  { fb with setErrorOnColumnCountMismatch := true,
            errorOnColumnCountMismatch := errorOnColumnCountMismatch }

def FileFormatBuilder.WithReplaceInvalidCharacters (fb : FileFormatBuilder) (replaceInvalidCharacters : Bool) : FileFormatBuilder :=
  { fb with setReplaceInvalidCharacters := true,
            replaceInvalidCharacters := replaceInvalidCharacters }

def FileFormatBuilder.WithValidateUtf8 (fb : FileFormatBuilder) (validateUtf8 : Bool) : FileFormatBuilder :=
  { fb with setValidateUtf8 := true, validateUtf8 := validateUtf8 }

def FileFormatBuilder.WithEmptyFieldAsNull (fb : FileFormatBuilder) (emptyFieldAsNull : Bool) : FileFormatBuilder :=
  { fb with setEmptyFieldAsNull := true, emptyFieldAsNull := emptyFieldAsNull }

def FileFormatBuilder.WithSkipByteOrderMark (fb : FileFormatBuilder) (skipByteOrderMark : Bool) : FileFormatBuilder :=
  { fb with setSkipByteOrderMark := true, skipByteOrderMark := skipByteOrderMark }

def FileFormatBuilder.WithEncoding (fb : FileFormatBuilder) (encoding : String) : FileFormatBuilder :=
  { fb with encoding := encoding }

/-- The rendering of one `NULL_IF` element: a single-quoted escaped
string. -/
def nullIfElem (n : String) : String :=
  "\x27" ++ EscapeString n ++ "\x27"

/-- `Create()`: the `CREATE FILE FORMAT` statement, appending one clause
per property whose guard holds, in the declaration order of the Go
function. -/
def FileFormatBuilder.Create (fb : FileFormatBuilder) : String :=
  let b := "CREATE FILE FORMAT " ++ fb.QualifiedName
  let b := if fb.fileFormatType ≠ "" then b ++ (" TYPE = \"" ++ fb.fileFormatType ++ "\"") else b
  let b := if fb.comment ≠ "" then b ++ (" COMMENT = \"" ++ EscapeString fb.comment ++ "\"") else b
  let b := if fb.compression ≠ "" then b ++ (" COMPRESSION = \"" ++ fb.compression ++ "\"") else b
  let b := if fb.setBinaryAsText then b ++ (" BINARY_AS_TEXT = " ++ goBoolString fb.binaryAsText) else b
  let b := if fb.setTrimSpace then b ++ (" TRIM_SPACE = " ++ goBoolString fb.trimSpace) else b
  let b := if fb.nullIf.length > 0 then
    b ++ (" NULL_IF = (" ++ goJoin (fb.nullIf.map nullIfElem) "," ++ ")") else b
  let b := if fb.recordDelimiter ≠ "" then b ++ (" RECORD_DELIMITER = \"" ++ EscapeString fb.recordDelimiter ++ "\"") else b
  let b := if fb.fieldDelimiter ≠ "" then b ++ (" FIELD_DELIMITER = \"" ++ EscapeString fb.fieldDelimiter ++ "\"") else b
  let b := if fb.fileExtension ≠ "" then b ++ (" FILE_EXTENSION = \"" ++ EscapeString fb.fileExtension ++ "\"") else b
  let b := if fb.setSkipHeader then b ++ (" SKIP_HEADER = " ++ goIntString fb.skipHeader) else b
  let b := if fb.setSkipBlankLines then b ++ (" SKIP_BLANK_LINES = " ++ goBoolString fb.skipBlankLines) else b
  let b := if fb.dateFormat ≠ "" then b ++ (" DATE_FORMAT = \"" ++ EscapeString fb.dateFormat ++ "\"") else b
  let b := if fb.timeFormat ≠ "" then b ++ (" TIME_FORMAT = \"" ++ EscapeString fb.timeFormat ++ "\"") else b
  let b := if fb.timestampFormat ≠ "" then b ++ (" TIMESTAMP_FORMAT = \"" ++ EscapeString fb.timestampFormat ++ "\"") else b
  let b := if fb.binaryFormat ≠ "" then b ++ (" BINARY_FORMAT = " ++ fb.binaryFormat) else b
  let b := if fb.escape ≠ "" then b ++ (" ESCAPE = \"" ++ EscapeString fb.escape ++ "\"") else b
  let b := if fb.escapeUnenclosedField ≠ "" then b ++ (" ESCAPE_UNENCLOSED_FIELD = \"" ++ EscapeString fb.escapeUnenclosedField ++ "\"") else b
  let b := if fb.fieldOptionallyEnclosedBy ≠ "" then b ++ (" FIELD_OPTIONALLY_ENCLOSED_BY = \"" ++ EscapeString fb.fieldOptionallyEnclosedBy ++ "\"") else b
  let b := if fb.setErrorOnColumnCountMismatch then b ++ (" ERROR_ON_COLUMN_COUNT_MISMATCH = " ++ goBoolString fb.errorOnColumnCountMismatch) else b
  let b := if fb.setReplaceInvalidCharacters then b ++ (" REPLACE_INVALID_CHARACTERS = " ++ goBoolString fb.replaceInvalidCharacters) else b
  let b := if fb.setValidateUtf8 then b ++ (" VALIDATE_UTF8 = " ++ goBoolString fb.validateUtf8) else b
  let b := if fb.setEmptyFieldAsNull then b ++ (" EMPTY_FIELD_AS_NULL = " ++ goBoolString fb.emptyFieldAsNull) else b
  let b := if fb.setSkipByteOrderMark then b ++ (" SKIP_BYTE_ORDER_MARK = " ++ goBoolString fb.skipByteOrderMark) else b
  let b := if fb.encoding ≠ "" then b ++ (" ENCODING = \"" ++ EscapeString fb.encoding ++ "\"") else b
  b

/-- `Drop()`. -/
def FileFormatBuilder.Drop (fb : FileFormatBuilder) : String :=
  "DROP FILE FORMAT " ++ fb.QualifiedName

/-- `Describe()`. -/
def FileFormatBuilder.Describe (fb : FileFormatBuilder) : String :=
  "DESCRIBE FILE FORMAT " ++ fb.QualifiedName

/-- `Show()`: filters by name and database only. -/
def FileFormatBuilder.Show (fb : FileFormatBuilder) : String :=
  "SHOW FILE FORMATS LIKE \x27" ++ fb.name ++ "\x27 IN DATABASE \"" ++ fb.db ++ "\""

example :
    ((((FileFormat "test_file_format" "test_db" "test_schema").WithType "parquet").WithComment
      "This is a test").WithNullIf ["\\N", "NULL", ""]).Create =
    "CREATE FILE FORMAT \"test_db\".\"test_schema\".\"test_file_format\" TYPE = \"parquet\" COMMENT = \"This is a test\" NULL_IF = (\x27\\\\N\x27,\x27NULL\x27,\x27\x27)" := by
  rfl

/-! ## Builder call histories

To talk about which properties were *explicitly provided*, builder states
are generated from lists of `With` calls. -/

/-- One tag per configurable property of the builder. -/
inductive FFProp
  | ffType | comment | compression | binaryAsText | trimSpace | nullIf
  | recordDelimiter | fieldDelimiter | fileExtension | skipHeader | skipBlankLines
  | dateFormat | timeFormat | timestampFormat | binaryFormat | escape
  | escapeUnenclosedField | fieldOptionallyEnclosedBy | errorOnColumnCountMismatch
  | replaceInvalidCharacters | validateUtf8 | emptyFieldAsNull | skipByteOrderMark
  | encoding
  deriving Repr, DecidableEq

/-- One constructor per `With` method of the builder. -/
inductive FFCall
  | withType (t : String)
  | withComment (s : String)
  | withCompression (s : String)
  | withBinaryAsText (b : Bool)
  | withTrimSpace (b : Bool)
  | withNullIf (ns : List String)
  | withRecordDelimiter (s : String)
  | withFieldDelimiter (s : String)
  | withFileExtension (s : String)
  | withSkipHeader (n : Int)
  | withSkipBlankLines (b : Bool)
  | withDateFormat (s : String)
  | withTimeFormat (s : String)
  | withTimestampFormat (s : String)
  | withBinaryFormat (s : String)
  | withEscape (s : String)
  | withEscapeUnenclosedField (s : String)
  | withFieldOptionallyEnclosedBy (s : String)
  | withErrorOnColumnCountMismatch (b : Bool)
  | withReplaceInvalidCharacters (b : Bool)
  | withValidateUtf8 (b : Bool)
  | withEmptyFieldAsNull (b : Bool)
  | withSkipByteOrderMark (b : Bool)
  | withEncoding (s : String)
  deriving Repr, DecidableEq

/-- Running one `With` call against a builder. -/
def applyCall (fb : FileFormatBuilder) : FFCall → FileFormatBuilder
  | .withType t => fb.WithType t
  | .withComment s => fb.WithComment s
  | .withCompression s => fb.WithCompression s
  | .withBinaryAsText b => fb.WithBinaryAsText b
  | .withTrimSpace b => fb.WithTrimSpace b
  | .withNullIf ns => fb.WithNullIf ns
  | .withRecordDelimiter s => fb.WithRecordDelimiter s
  | .withFieldDelimiter s => fb.WithFieldDelimiter s
  | .withFileExtension s => fb.WithFileExtension s
  | .withSkipHeader n => fb.WithSkipHeader n
  | .withSkipBlankLines b => fb.WithSkipBlankLines b
  | .withDateFormat s => fb.WithDateFormat s
  | .withTimeFormat s => fb.WithTimeFormat s
  | .withTimestampFormat s => fb.WithTimestampFormat s
  | .withBinaryFormat s => fb.WithBinaryFormat s
  | .withEscape s => fb.WithEscape s
  | .withEscapeUnenclosedField s => fb.WithEscapeUnenclosedField s
  | .withFieldOptionallyEnclosedBy s => fb.WithFieldOptionallyEnclosedBy s
  | .withErrorOnColumnCountMismatch b => fb.WithErrorOnColumnCountMismatch b
  | .withReplaceInvalidCharacters b => fb.WithReplaceInvalidCharacters b
  | .withValidateUtf8 b => fb.WithValidateUtf8 b
  | .withEmptyFieldAsNull b => fb.WithEmptyFieldAsNull b
  | .withSkipByteOrderMark b => fb.WithSkipByteOrderMark b
  | .withEncoding s => fb.WithEncoding s

/-- The property a call provides. -/
def callProp : FFCall → FFProp
  | .withType _ => .ffType
  | .withComment _ => .comment
  | .withCompression _ => .compression
  | .withBinaryAsText _ => .binaryAsText
  | .withTrimSpace _ => .trimSpace
  | .withNullIf _ => .nullIf
  | .withRecordDelimiter _ => .recordDelimiter
  | .withFieldDelimiter _ => .fieldDelimiter
  | .withFileExtension _ => .fileExtension
  | .withSkipHeader _ => .skipHeader
  | .withSkipBlankLines _ => .skipBlankLines
  | .withDateFormat _ => .dateFormat
  | .withTimeFormat _ => .timeFormat
  | .withTimestampFormat _ => .timestampFormat
  | .withBinaryFormat _ => .binaryFormat
  | .withEscape _ => .escape
  | .withEscapeUnenclosedField _ => .escapeUnenclosedField
  | .withFieldOptionallyEnclosedBy _ => .fieldOptionallyEnclosedBy
  | .withErrorOnColumnCountMismatch _ => .errorOnColumnCountMismatch
  | .withReplaceInvalidCharacters _ => .replaceInvalidCharacters
  | .withValidateUtf8 _ => .validateUtf8
  | .withEmptyFieldAsNull _ => .emptyFieldAsNull
  | .withSkipByteOrderMark _ => .skipByteOrderMark
  | .withEncoding _ => .encoding

/-- The builder obtained from a fresh `FileFormat(name, db, schema)` by a
sequence of `With` calls. -/
def buildCalls (name db schema : String) (cs : List FFCall) : FileFormatBuilder :=
  cs.foldl applyCall (FileFormat name db schema)

/-- Whether a call history explicitly provided a property. -/
def providedProp (cs : List FFCall) (p : FFProp) : Bool :=
  cs.any (fun c => callProp c = p)

/-- The clause `Create()` emits for one property: empty when the guard of
the corresponding `if` in the Go function fails. -/
def clauseFor (fb : FileFormatBuilder) : FFProp → String
  | .ffType => if fb.fileFormatType ≠ "" then " TYPE = \"" ++ fb.fileFormatType ++ "\"" else ""
  | .comment => if fb.comment ≠ "" then " COMMENT = \"" ++ EscapeString fb.comment ++ "\"" else ""
  | .compression => if fb.compression ≠ "" then " COMPRESSION = \"" ++ fb.compression ++ "\"" else ""
  | .binaryAsText => if fb.setBinaryAsText then " BINARY_AS_TEXT = " ++ goBoolString fb.binaryAsText else ""
  | .trimSpace => if fb.setTrimSpace then " TRIM_SPACE = " ++ goBoolString fb.trimSpace else ""
  | .nullIf => if fb.nullIf.length > 0 then " NULL_IF = (" ++ goJoin (fb.nullIf.map nullIfElem) "," ++ ")" else ""
  | .recordDelimiter => if fb.recordDelimiter ≠ "" then " RECORD_DELIMITER = \"" ++ EscapeString fb.recordDelimiter ++ "\"" else ""
  | .fieldDelimiter => if fb.fieldDelimiter ≠ "" then " FIELD_DELIMITER = \"" ++ EscapeString fb.fieldDelimiter ++ "\"" else ""
  | .fileExtension => if fb.fileExtension ≠ "" then " FILE_EXTENSION = \"" ++ EscapeString fb.fileExtension ++ "\"" else ""
  | .skipHeader => if fb.setSkipHeader then " SKIP_HEADER = " ++ goIntString fb.skipHeader else ""
  | .skipBlankLines => if fb.setSkipBlankLines then " SKIP_BLANK_LINES = " ++ goBoolString fb.skipBlankLines else ""
  | .dateFormat => if fb.dateFormat ≠ "" then " DATE_FORMAT = \"" ++ EscapeString fb.dateFormat ++ "\"" else ""
  | .timeFormat => if fb.timeFormat ≠ "" then " TIME_FORMAT = \"" ++ EscapeString fb.timeFormat ++ "\"" else ""
  | .timestampFormat => if fb.timestampFormat ≠ "" then " TIMESTAMP_FORMAT = \"" ++ EscapeString fb.timestampFormat ++ "\"" else ""
  | .binaryFormat => if fb.binaryFormat ≠ "" then " BINARY_FORMAT = " ++ fb.binaryFormat else ""
  | .escape => if fb.escape ≠ "" then " ESCAPE = \"" ++ EscapeString fb.escape ++ "\"" else ""
  | .escapeUnenclosedField => if fb.escapeUnenclosedField ≠ "" then " ESCAPE_UNENCLOSED_FIELD = \"" ++ EscapeString fb.escapeUnenclosedField ++ "\"" else ""
  | .fieldOptionallyEnclosedBy => if fb.fieldOptionallyEnclosedBy ≠ "" then " FIELD_OPTIONALLY_ENCLOSED_BY = \"" ++ EscapeString fb.fieldOptionallyEnclosedBy ++ "\"" else ""
  | .errorOnColumnCountMismatch => if fb.setErrorOnColumnCountMismatch then " ERROR_ON_COLUMN_COUNT_MISMATCH = " ++ goBoolString fb.errorOnColumnCountMismatch else ""
  | .replaceInvalidCharacters => if fb.setReplaceInvalidCharacters then " REPLACE_INVALID_CHARACTERS = " ++ goBoolString fb.replaceInvalidCharacters else ""
  | .validateUtf8 => if fb.setValidateUtf8 then " VALIDATE_UTF8 = " ++ goBoolString fb.validateUtf8 else ""
  | .emptyFieldAsNull => if fb.setEmptyFieldAsNull then " EMPTY_FIELD_AS_NULL = " ++ goBoolString fb.emptyFieldAsNull else ""
  | .skipByteOrderMark => if fb.setSkipByteOrderMark then " SKIP_BYTE_ORDER_MARK = " ++ goBoolString fb.skipByteOrderMark else ""
  | .encoding => if fb.encoding ≠ "" then " ENCODING = \"" ++ EscapeString fb.encoding ++ "\"" else ""

/-- The declaration order of the clauses in `Create()`. -/
def clauseOrder : List FFProp :=
  [.ffType, .comment, .compression, .binaryAsText, .trimSpace, .nullIf,
   .recordDelimiter, .fieldDelimiter, .fileExtension, .skipHeader, .skipBlankLines,
   .dateFormat, .timeFormat, .timestampFormat, .binaryFormat, .escape,
   .escapeUnenclosedField, .fieldOptionallyEnclosedBy, .errorOnColumnCountMismatch,
   .replaceInvalidCharacters, .validateUtf8, .emptyFieldAsNull, .skipByteOrderMark,
   .encoding]

/-- All clauses of `Create()`, in declaration order. -/
def clauseList (fb : FileFormatBuilder) : List String :=
  clauseOrder.map (clauseFor fb)

/-! ## The identifier codec

`fileFormatID.String()` writes the triple through `encoding/csv` with a
pipe separator and trims the result; `fileFormatIDFromString` reads it
back.  The semantics of the Go `csv.Writer`/`csv.Reader` (quoting rules,
`""` escapes, newline normalisation, field-count check) are reproduced
below. -/

/-- `csv.Writer.fieldNeedsQuotes`: a field is quoted when it is the
PostgreSQL end-of-data marker, contains the separator, a double quote or a
newline character, or begins with white space. -/
def fieldNeedsQuotes (comma : Char) (field : List Char) : Bool :=
  if field = [] then false
  else if field = ['\\', '.'] then true
  else if field.any (fun c => c = comma ∨ c = '"' ∨ c = '\r' ∨ c = '\n') then true
  else
    match field with
    | c :: _ => isGoSpace c
    | [] => false

/-- Body of a quoted field: every double quote is doubled (with
`UseCRLF = false`, `CR` and `LF` pass through unchanged). -/
def csvQuoteBody : List Char → List Char
  | [] => []
  | '"' :: rest => '"' :: '"' :: csvQuoteBody rest
  | c :: rest => c :: csvQuoteBody rest

/-- One written field, quoted when needed. -/
def csvWriteField (comma : Char) (f : List Char) : List Char :=
  if fieldNeedsQuotes comma f then '"' :: (csvQuoteBody f ++ ['"']) else f

/-- One written record: fields joined by the separator, terminated by a
newline (`UseCRLF = false`). -/
def csvWriteRecord (comma : Char) : List (List Char) → List Char
  | [] => ['\n']
  | [f] => csvWriteField comma f ++ ['\n']
  | f :: fs => csvWriteField comma f ++ comma :: csvWriteRecord comma fs

/-- Reader modes: at the start of a record, at the start of a later
field, inside an unquoted field, inside a quoted field, just after a
closing quote. -/
inductive CsvMode
  | recStart | fieldStart | unquoted | quoted | quotedEnd
  deriving Repr, DecidableEq

/-- Reader state: the current field, the fields of the current record,
and the finished records. -/
structure CsvState where
  cur : List Char
  fields : List (List Char)
  records : List (List (List Char))
  mode : CsvMode
  deriving Repr, DecidableEq

def csvInitState : CsvState := ⟨[], [], [], .recStart⟩

/-- Close the current record. -/
def csvEndRecord (st : CsvState) : CsvState :=
  { cur := [], fields := [], records := st.records ++ [st.fields ++ [st.cur]],
    mode := .recStart }

/-- A character seen while expecting a field to start. -/
def csvFieldStartChar (comma : Char) (st : CsvState) (c : Char) : Except String CsvState :=
  if c = '"' then .ok { st with mode := .quoted }
  else if c = comma then .ok { st with cur := [], fields := st.fields ++ [st.cur], mode := .fieldStart }
  else if c = '\n' then .ok (csvEndRecord st)
  else .ok { st with cur := st.cur ++ [c], mode := .unquoted }

/-- One character of reader input. -/
def csvStepChar (comma : Char) (st : CsvState) (c : Char) : Except String CsvState :=
  match st.mode with
  | .recStart =>
    if c = '\n' then .ok st
    else csvFieldStartChar comma st c
  | .fieldStart => csvFieldStartChar comma st c
  | .unquoted =>
    if c = '"' then .error "bare quote in non-quoted field"
    else if c = comma then .ok { st with cur := [], fields := st.fields ++ [st.cur], mode := .fieldStart }
    else if c = '\n' then .ok (csvEndRecord st)
    else .ok { st with cur := st.cur ++ [c] }
  | .quoted =>
    if c = '"' then .ok { st with mode := .quotedEnd }
    else .ok { st with cur := st.cur ++ [c] }
  | .quotedEnd =>
    if c = '"' then .ok { st with cur := st.cur ++ ['"'], mode := .quoted }
    else if c = comma then .ok { st with cur := [], fields := st.fields ++ [st.cur], mode := .fieldStart }
    else if c = '\n' then .ok (csvEndRecord st)
    else .error "extraneous or missing quote in quoted field"

/-- Error-absorbing step for folding over the input. -/
def csvStep (comma : Char) : Except String CsvState → Char → Except String CsvState
  | .error e, _ => .error e
  | .ok st, c => csvStepChar comma st c

/-- End of input: an open record is closed; an unterminated quoted field
is an error. -/
def csvFinish (st : CsvState) : Except String (List (List (List Char))) :=
  match st.mode with
  | .recStart => .ok st.records
  | .fieldStart => .ok (st.records ++ [st.fields ++ [st.cur]])
  | .unquoted => .ok (st.records ++ [st.fields ++ [st.cur]])
  | .quoted => .error "extraneous or missing quote in quoted field"
  | .quotedEnd => .ok (st.records ++ [st.fields ++ [st.cur]])

/-- `csv.Reader.ReadAll` rejects records whose field count differs from
the first record's. -/
def csvCheckCounts (records : List (List (List Char))) :
    Except String (List (List (List Char))) :=
  match records with
  | [] => .ok []
  | r :: rs => if rs.all (fun x => x.length = r.length) then .ok (r :: rs)
               else .error "wrong number of fields"

/-- `readLine` normalisation: every CR-LF pair becomes a bare LF,
scanning left to right. -/
def normCRLF : List Char → List Char
  | [] => []
  | [c] => [c]
  | c1 :: c2 :: rest =>
    if c1 = '\r' ∧ c2 = '\n' then '\n' :: normCRLF rest
    else c1 :: normCRLF (c2 :: rest)

/-- `readLine` drops a trailing CR at end of file. -/
def dropFinalCR (cs : List Char) : List Char :=
  if cs.getLast? = some '\r' then cs.dropLast else cs

/-- `csv.Reader.ReadAll` over a whole input string. -/
def csvReadAll (comma : Char) (input : List Char) :
    Except String (List (List (List Char))) :=
  match (dropFinalCR (normCRLF input)).foldl (csvStep comma) (.ok csvInitState) with
  | .error e => .error e
  | .ok st =>
    match csvFinish st with
    | .error e => .error e
    | .ok records => csvCheckCounts records

/-- The composite identity: database, schema and object name. -/
structure fileFormatID where
  DatabaseName : String
  SchemaName : String
  FileFormatName : String
  deriving Repr, DecidableEq

/-- Modelled from the spec: `stageIDDelimiter`, the writer's separator,
is defined outside the extract; the persisted identity format is
pipe-delimited. -/
def stageIDDelimiter : Char := '|'

/-- The reader's separator (defined in the extract). -/
def fileFormatIDDelimiter : Char := '|'

/-- `fileFormatID.String()`: write the triple as one CSV record with the
pipe separator and trim surrounding white space (the Go method's error
return is always nil when writing to an in-memory buffer). -/
def fileFormatIDString (id : fileFormatID) : String :=
  String.mk (goTrimSpaceList (csvWriteRecord stageIDDelimiter
    [id.DatabaseName.data, id.SchemaName.data, id.FileFormatName.data]))

/-- `fileFormatIDFromString`: read the persisted identity back, demanding
one well-formed record of exactly three fields. -/
def fileFormatIDFromString (stringID : String) : Except String fileFormatID :=
  match csvReadAll fileFormatIDDelimiter stringID.data with
  | .error _ => .error "Not CSV compatible"
  | .ok lines =>
    if lines.length ≠ 1 then .error "1 line per file format"
    else
      match lines with
      | [fields] =>
        if fields.length ≠ 3 then .error "3 fields allowed"
        else
          match fields with
          | [d, sc, nm] => .ok ⟨String.mk d, String.mk sc, String.mk nm⟩
          | _ => .error "3 fields allowed"
      | _ => .error "1 line per file format"

example : fileFormatIDString ⟨"db", "schema", "name"⟩ = "db|schema|name" := by rfl

example : fileFormatIDFromString "db|schema|name" = .ok ⟨"db", "schema", "name"⟩ := by rfl

/-! ## The result parser (`DescFileFormat`) -/

/-- One row of `DESCRIBE FILE FORMAT` output. -/
structure descFileFormatRow where
  Property : String
  PropertyType : String
  PropertyValue : String
  PropertyDefault : String
  deriving Repr, DecidableEq

/-- The observed-state record, zero-valued like the fresh Go struct. -/
structure fileFormatData where
  «Type» : String := ""
  Compression : String := ""
  BinaryAsText : Bool := false
  TrimSpace : Bool := false
  NullIf : List String := []
  RecordDelimiter : String := ""
  FieldDelimiter : String := ""
  FileExtension : String := ""
  SkipHeader : Int := 0
  SkipBlankLines : Bool := false
  DateFormat : String := ""
  TimeFormat : String := ""
  TimestampFormat : String := ""
  BinaryFormat : String := ""
  Escape : String := ""
  EscapeUnenclosedField : String := ""
  FieldOptionallyEnclosedBy : String := ""
  ErrorOnColumnCountMismatch : Bool := false
  ReplaceInvalidCharacters : Bool := false
  ValidateUtf8 : Bool := false
  EmptyFieldAsNull : Bool := false
  SkipByteOrderMark : Bool := false
  Encoding : String := ""
  deriving Repr, DecidableEq

/-- The zero value of the observed-state record. -/
def emptyFileFormatData : fileFormatData := {}

/-- Decoding of the `NULL_IF` row value: trim the bracket/quote cutset
from the ends, and unless the remainder is empty split it on commas,
trimming and unescaping each piece. -/
def descNullIfValue (propertyValue : String) : List String :=
  let strs := goTrimList propertyValue.data ['[', '"', ']']
  if strs.length < 1 then []
  else
    (splitChar strs ',').map (fun str =>
      UnescapeString (String.mk (goTrimSpaceList str)))

/-- The `switch` body of `DescFileFormat` for one row: recognised
properties update their field (boolean and integer properties may fail to
parse), unrecognised properties leave the record unchanged. -/
def descApplyRow (result : fileFormatData) (row : descFileFormatRow) :
    Except String fileFormatData :=
  match row.Property with
  | "TYPE" => .ok { result with «Type» := row.PropertyValue }
  | "COMPRESSION" => .ok { result with Compression := row.PropertyValue }
  | "BINARY_AS_TEXT" =>
    match goParseBool row.PropertyValue with
    | some v => .ok { result with BinaryAsText := v }
    | none => .error ("parsing " ++ row.PropertyValue ++ ": invalid syntax")
  | "TRIM_SPACE" =>
    match goParseBool row.PropertyValue with
    | some v => .ok { result with TrimSpace := v }
    | none => .error ("parsing " ++ row.PropertyValue ++ ": invalid syntax")
  | "NULL_IF" => .ok { result with NullIf := descNullIfValue row.PropertyValue }
  | "RECORD_DELIMITER" => .ok { result with RecordDelimiter := row.PropertyValue }
  | "FIELD_DELIMITER" => .ok { result with FieldDelimiter := row.PropertyValue }
  | "FILE_EXTENSION" => .ok { result with FileExtension := row.PropertyValue }
  | "SKIP_HEADER" =>
    match goAtoi row.PropertyValue with
    | some v => .ok { result with SkipHeader := v }
    | none => .error ("parsing " ++ row.PropertyValue ++ ": invalid syntax")
  | "SKIP_BLANK_LINES" =>
    match goParseBool row.PropertyValue with
    | some v => .ok { result with SkipBlankLines := v }
    | none => .error ("parsing " ++ row.PropertyValue ++ ": invalid syntax")
  | "DATE_FORMAT" => .ok { result with DateFormat := row.PropertyValue }
  | "TIME_FORMAT" => .ok { result with TimeFormat := row.PropertyValue }
  | "TIMESTAMP_FORMAT" => .ok { result with TimestampFormat := row.PropertyValue }
  | "BINARY_FORMAT" => .ok { result with BinaryFormat := row.PropertyValue }
  | "ESCAPE" => .ok { result with Escape := row.PropertyValue }
  | "ESCAPE_UNENCLOSED_FIELD" => .ok { result with EscapeUnenclosedField := row.PropertyValue }
  | "FIELD_OPTIONALLY_ENCLOSED_BY" => .ok { result with FieldOptionallyEnclosedBy := row.PropertyValue }
  | "ERROR_ON_COLUMN_COUNT_MISMATCH" =>
    match goParseBool row.PropertyValue with
    | some v => .ok { result with ErrorOnColumnCountMismatch := v }
    | none => .error ("parsing " ++ row.PropertyValue ++ ": invalid syntax")
  | "REPLACE_INVALID_CHARACTERS" =>
    match goParseBool row.PropertyValue with
    | some v => .ok { result with ReplaceInvalidCharacters := v }
    | none => .error ("parsing " ++ row.PropertyValue ++ ": invalid syntax")
  | "VALIDATE_UTF8" =>
    match goParseBool row.PropertyValue with
    | some v => .ok { result with ValidateUtf8 := v }
    | none => .error ("parsing " ++ row.PropertyValue ++ ": invalid syntax")
  | "EMPTY_FIELD_AS_NULL" =>
    match goParseBool row.PropertyValue with
    | some v => .ok { result with EmptyFieldAsNull := v }
    | none => .error ("parsing " ++ row.PropertyValue ++ ": invalid syntax")
  | "SKIP_BYTE_ORDER_MARK" =>
    match goParseBool row.PropertyValue with
    | some v => .ok { result with SkipByteOrderMark := v }
    | none => .error ("parsing " ++ row.PropertyValue ++ ": invalid syntax")
  | "ENCODING" => .ok { result with Encoding := row.PropertyValue }
  | _ => .ok result

/-- The row loop of `DescFileFormat`: on the first row that fails to
parse, the Go function returns a fresh zero-valued record together with
the error. -/
def descLoop (acc : fileFormatData) : List descFileFormatRow →
    fileFormatData × Option String
  | [] => (acc, none)
  | row :: rows =>
    match descApplyRow acc row with
    | .ok acc2 => descLoop acc2 rows
    | .error e => (emptyFileFormatData, some e)

/-- `DescFileFormat` over the row set of a DESCRIBE query (the database
call itself is an external collaborator; its rows are the input here). -/
def DescFileFormat (rows : List descFileFormatRow) :
    fileFormatData × Option String :=
  descLoop emptyFileFormatData rows

/-! ## The lifecycle adapter: `DeleteFileFormat` -/

/-- The only resource state `DeleteFileFormat` touches: the persisted
identity string. -/
structure ResourceData where
  id : String
  deriving Repr, DecidableEq

/-- `errors.Wrapf`: the wrapped error renders as `message: cause`. -/
def wrapErr (msg cause : String) : String := msg ++ ": " ++ cause

/-- `DeleteFileFormat`: decode the identity, execute the DROP statement
through the supplied database handle, and clear the identity only when
the execution succeeded.  The handle is modelled as a function from the
statement text to an optional execution error. -/
def DeleteFileFormat (data : ResourceData) (exec : String → Option String) :
    ResourceData × Option String :=
  match fileFormatIDFromString data.id with
  | .error e => (data, some e)
  | .ok ffid =>
    let builder := FileFormat ffid.FileFormatName ffid.DatabaseName ffid.SchemaName
    match exec builder.Drop with
    | some e => (data, some (wrapErr ("error deleting file format " ++ data.id) e))
    | none => ({ data with id := "" }, none)

/-! ## Helper lemmas -/

theorem strDataAppend (s t : String) : (s ++ t).data = s.data ++ t.data := rfl

theorem strNeEmptyOfLeft (a b : String) (h : a.data ≠ []) : a ++ b ≠ "" := by
  intro he
  have hd : a.data ++ b.data = [] := by
    have h2 := congrArg String.data he
    rw [strDataAppend] at h2
    exact h2
  exact h (List.append_eq_nil.mp hd).1

theorem iteAppend (c : Prop) [Decidable c] (b s : String) :
    (if c then b ++ s else b) = b ++ (if c then s else "") := by
  by_cases h : c <;> simp [h]

/-- `Create()` is the header followed by the clauses of `clauseList`,
folded left in declaration order. -/
theorem createEqFoldl (fb : FileFormatBuilder) :
    fb.Create = (clauseList fb).foldl (· ++ ·)
      ("CREATE FILE FORMAT " ++ fb.QualifiedName) := by
  unfold FileFormatBuilder.Create clauseList clauseOrder
  simp only [iteAppend, List.map, List.foldl, clauseFor]

theorem strNeEmptyIffData (s : String) : s ≠ "" ↔ s.data ≠ [] := by
  cases s with
  | mk l =>
    constructor
    · intro h hd
      subst hd
      exact h rfl
    · intro h he
      exact h (congrArg String.data he)

theorem iteNeEmpty {c : Prop} [Decidable c] {s : String} (hs : s ≠ "") :
    ((if c then s else "") ≠ "") ↔ c := by
  by_cases h : c <;> simp [h, hs]

/-- The flag-carrying (boolean and integer) properties of the builder. -/
def isFlagProp : FFProp → Bool
  | .binaryAsText | .trimSpace | .skipHeader | .skipBlankLines
  | .errorOnColumnCountMismatch | .replaceInvalidCharacters | .validateUtf8
  | .emptyFieldAsNull | .skipByteOrderMark => true
  | _ => false

/-- The string-valued properties of the builder (clause guarded by
non-emptiness of the value). -/
def isStringProp : FFProp → Bool
  | .ffType | .comment | .compression | .recordDelimiter | .fieldDelimiter
  | .fileExtension | .dateFormat | .timeFormat | .timestampFormat | .binaryFormat
  | .escape | .escapeUnenclosedField | .fieldOptionallyEnclosedBy | .encoding => true
  | _ => false

/-- The was-set flag of a flag-carrying property. -/
def setFlag (fb : FileFormatBuilder) : FFProp → Bool
  | .binaryAsText => fb.setBinaryAsText
  | .trimSpace => fb.setTrimSpace
  | .skipHeader => fb.setSkipHeader
  | .skipBlankLines => fb.setSkipBlankLines
  | .errorOnColumnCountMismatch => fb.setErrorOnColumnCountMismatch
  | .replaceInvalidCharacters => fb.setReplaceInvalidCharacters
  | .validateUtf8 => fb.setValidateUtf8
  | .emptyFieldAsNull => fb.setEmptyFieldAsNull
  | .skipByteOrderMark => fb.setSkipByteOrderMark
  | _ => false

/-- The current value of a string-valued property. -/
def stringValue (fb : FileFormatBuilder) : FFProp → String
  | .ffType => fb.fileFormatType
  | .comment => fb.comment
  | .compression => fb.compression
  | .recordDelimiter => fb.recordDelimiter
  | .fieldDelimiter => fb.fieldDelimiter
  | .fileExtension => fb.fileExtension
  | .dateFormat => fb.dateFormat
  | .timeFormat => fb.timeFormat
  | .timestampFormat => fb.timestampFormat
  | .binaryFormat => fb.binaryFormat
  | .escape => fb.escape
  | .escapeUnenclosedField => fb.escapeUnenclosedField
  | .fieldOptionallyEnclosedBy => fb.fieldOptionallyEnclosedBy
  | .encoding => fb.encoding
  | _ => ""

theorem setFlag_applyCall (fb : FileFormatBuilder) (c : FFCall) (p : FFProp)
    (h : isFlagProp p = true) :
    setFlag (applyCall fb c) p = (setFlag fb p || decide (callProp c = p)) := by
  cases p <;> simp [isFlagProp] at h <;> cases c <;>
    simp [applyCall, callProp, setFlag, FileFormatBuilder.WithType,
      FileFormatBuilder.WithComment, FileFormatBuilder.WithCompression,
      FileFormatBuilder.WithBinaryAsText, FileFormatBuilder.WithTrimSpace,
      FileFormatBuilder.WithNullIf, FileFormatBuilder.WithRecordDelimiter,
      FileFormatBuilder.WithFieldDelimiter, FileFormatBuilder.WithFileExtension,
      FileFormatBuilder.WithSkipHeader, FileFormatBuilder.WithSkipBlankLines,
      FileFormatBuilder.WithDateFormat, FileFormatBuilder.WithTimeFormat,
      FileFormatBuilder.WithTimestampFormat, FileFormatBuilder.WithBinaryFormat,
      FileFormatBuilder.WithEscape, FileFormatBuilder.WithEscapeUnenclosedField,
      FileFormatBuilder.WithFieldOptionallyEnclosedBy,
      FileFormatBuilder.WithErrorOnColumnCountMismatch,
      FileFormatBuilder.WithReplaceInvalidCharacters, FileFormatBuilder.WithValidateUtf8,
      FileFormatBuilder.WithEmptyFieldAsNull, FileFormatBuilder.WithSkipByteOrderMark,
      FileFormatBuilder.WithEncoding]

theorem setFlag_foldl (p : FFProp) (hp : isFlagProp p = true) :
    ∀ (cs : List FFCall) (fb : FileFormatBuilder),
      setFlag (cs.foldl applyCall fb) p = (setFlag fb p || cs.any fun c => callProp c = p)
  | [], fb => by simp
  | c :: cs, fb => by
    rw [List.foldl_cons, setFlag_foldl p hp cs (applyCall fb c),
      setFlag_applyCall fb c p hp]
    simp [Bool.or_assoc]

theorem setFlag_fresh (name db schema : String) (p : FFProp) :
    setFlag (FileFormat name db schema) p = false := by
  cases p <;> rfl

theorem clauseFor_flag (fb : FileFormatBuilder) (p : FFProp) (h : isFlagProp p = true) :
    (clauseFor fb p ≠ "" ↔ setFlag fb p = true) := by
  cases p <;> simp [isFlagProp] at h <;>
    exact iteNeEmpty (strNeEmptyOfLeft _ _ (by decide))

theorem clauseFor_string (fb : FileFormatBuilder) (p : FFProp) (h : isStringProp p = true) :
    (clauseFor fb p ≠ "" ↔ stringValue fb p ≠ "") := by
  cases p <;> simp [isStringProp] at h <;>
    first
    | exact iteNeEmpty (strNeEmptyOfLeft _ _ (by
        rw [strDataAppend]
        intro hc
        exact absurd (List.append_eq_nil.mp hc).1 (by decide)))
    | exact iteNeEmpty (strNeEmptyOfLeft _ _ (by decide))

theorem clauseFor_nullIf (fb : FileFormatBuilder) :
    (clauseFor fb .nullIf ≠ "" ↔ fb.nullIf ≠ []) := by
  have hne : " NULL_IF = (" ++ goJoin (fb.nullIf.map nullIfElem) "," ++ ")" ≠ "" := by
    apply strNeEmptyOfLeft
    rw [strDataAppend]
    intro hc
    exact absurd (List.append_eq_nil.mp hc).1 (by decide)
  simp only [clauseFor]
  rw [iteNeEmpty hne]
  constructor
  · intro h
    intro hnil
    rw [hnil] at h
    simp at h
  · intro h
    have := List.length_pos.mpr h
    omega

/-! ## Claim C3 -/

/-- C3: for every builder constructed from `(name, database, schema)` with
no optional property set, `Create()` is exactly
`CREATE FILE FORMAT "<db>"."<schema>"."<name>"` with no trailing
clauses. -/
theorem createNoOptionalsExact (name db schema : String) :
    (FileFormat name db schema).Create =
      "CREATE FILE FORMAT " ++
        ("\"" ++ db ++ "\".\"" ++ schema ++ "\".\"" ++ name ++ "\"") := rfl

/-! ## Claim C2 -/

/-- C2 counterexample: on the builder where `WithComment` was explicitly
called with the empty string, the comment property was provided but
`Create()` emits no `COMMENT` clause, so presence of a clause is *not*
equivalent to the property having been explicitly provided. -/
theorem createClauseIffProvidedFalse :
    ¬ (clauseFor (buildCalls "nm" "db" "sc" [FFCall.withComment ""]) FFProp.comment ≠ ""
        ↔ providedProp [FFCall.withComment ""] FFProp.comment = true) := by
  decide

/-- C2 (amended): for every call history, a flag-carrying (boolean or
integer) property emits its clause exactly when it was explicitly
provided — in particular a boolean explicitly set to `false` still emits
its clause — while a string-valued property emits its clause exactly when
its current value is non-empty (so providing an empty string emits
nothing), and the `NULL_IF` clause appears exactly when the current list
is non-empty. -/
theorem createClauseIffAmended (name db schema : String) (cs : List FFCall) (p : FFProp) :
    (isFlagProp p = true →
      (clauseFor (buildCalls name db schema cs) p ≠ "" ↔ providedProp cs p = true)) ∧
    (isStringProp p = true →
      (clauseFor (buildCalls name db schema cs) p ≠ "" ↔
        stringValue (buildCalls name db schema cs) p ≠ "")) ∧
    (clauseFor (buildCalls name db schema cs) FFProp.nullIf ≠ "" ↔
      (buildCalls name db schema cs).nullIf ≠ []) := by
  refine ⟨fun hp => ?_, fun hp => clauseFor_string _ p hp, clauseFor_nullIf _⟩
  rw [clauseFor_flag _ p hp]
  unfold buildCalls
  rw [setFlag_foldl p hp cs (FileFormat name db schema), setFlag_fresh]
  simp [providedProp]

/-- C2 witness: the amended equivalences at a concrete history. -/
theorem createClauseIffAmended_witness :
    (clauseFor (buildCalls "nm" "db" "sc" [FFCall.withBinaryAsText false]) FFProp.binaryAsText ≠ ""
      ↔ providedProp [FFCall.withBinaryAsText false] FFProp.binaryAsText = true) ∧
    (clauseFor (buildCalls "nm" "db" "sc" [FFCall.withComment ""]) FFProp.comment ≠ ""
      ↔ stringValue (buildCalls "nm" "db" "sc" [FFCall.withComment ""]) FFProp.comment ≠ "") :=
  ⟨(createClauseIffAmended "nm" "db" "sc" [FFCall.withBinaryAsText false] FFProp.binaryAsText).1 rfl,
   (createClauseIffAmended "nm" "db" "sc" [FFCall.withComment ""] FFProp.comment).2.1 rfl⟩

/-! ## Claim C10 -/

theorem nullIf_applyCall (c : FFCall) (h : callProp c ≠ FFProp.nullIf)
    (fb : FileFormatBuilder) : (applyCall fb c).nullIf = fb.nullIf := by
  cases c <;> first | rfl | exact absurd rfl h

theorem nullIf_foldl (cs : List FFCall) (h : ∀ c ∈ cs, callProp c ≠ FFProp.nullIf) :
    ∀ fb : FileFormatBuilder, (cs.foldl applyCall fb).nullIf = fb.nullIf := by
  induction cs with
  | nil => intro fb; rfl
  | cons c cs ih =>
    intro fb
    rw [List.foldl_cons, ih (fun x hx => h x (List.mem_cons_of_mem _ hx)),
      nullIf_applyCall c (h c (List.mem_cons_self _ _)) fb]

/-- C10: calling `WithNullIf` with the empty list leaves `Create()`
identical to never calling `WithNullIf`: the builder state it produces is
the state it was given, because the fresh builder's list is already empty
and no `NULL_IF` clause is emitted for an empty list. -/
theorem withNullIfEmptyNoop (name db schema : String) (cs₁ cs₂ : List FFCall)
    (h : ∀ c ∈ cs₁, callProp c ≠ FFProp.nullIf) :
    (buildCalls name db schema (cs₁ ++ FFCall.withNullIf [] :: cs₂)).Create =
      (buildCalls name db schema (cs₁ ++ cs₂)).Create := by
  unfold buildCalls
  rw [List.foldl_append, List.foldl_append, List.foldl_cons]
  have hn : (cs₁.foldl applyCall (FileFormat name db schema)).nullIf = [] := by
    rw [nullIf_foldl cs₁ h]
    rfl
  have hfb : applyCall (cs₁.foldl applyCall (FileFormat name db schema))
      (FFCall.withNullIf []) = cs₁.foldl applyCall (FileFormat name db schema) := by
    show FileFormatBuilder.WithNullIf _ [] = _
    unfold FileFormatBuilder.WithNullIf
    ext <;> simp [hn]
  rw [hfb]

/-- C10 witness: a concrete history around an empty `WithNullIf` call. -/
theorem withNullIfEmptyNoop_witness :
    (buildCalls "nm" "db" "sc"
        ([FFCall.withComment "c"] ++ FFCall.withNullIf [] :: [FFCall.withType "t"])).Create =
      (buildCalls "nm" "db" "sc" ([FFCall.withComment "c"] ++ [FFCall.withType "t"])).Create :=
  withNullIfEmptyNoop "nm" "db" "sc" [FFCall.withComment "c"] [FFCall.withType "t"]
    (by decide)

/-! ## Claim C4 -/

theorem applyCall_comm (c₁ c₂ : FFCall) (h : callProp c₁ ≠ callProp c₂)
    (fb : FileFormatBuilder) :
    applyCall (applyCall fb c₁) c₂ = applyCall (applyCall fb c₂) c₁ := by
  cases c₁ <;> cases c₂ <;> first | rfl | exact absurd rfl h

/-- C4: the clauses of `Create()` always appear in the fixed declaration
order (the output is the header followed by the fold of `clauseList`, the
per-property clauses in declaration order), and for histories that set
pairwise distinct properties the output does not depend on the order of
the `With` calls. -/
theorem createFixedOrder (name db schema : String) (cs cs2 : List FFCall)
    (hperm : cs.Perm cs2) (hnodup : (cs.map callProp).Nodup) :
    (buildCalls name db schema cs).Create = (buildCalls name db schema cs2).Create ∧
    (buildCalls name db schema cs).Create =
      (clauseList (buildCalls name db schema cs)).foldl (· ++ ·)
        ("CREATE FILE FORMAT " ++ (buildCalls name db schema cs).QualifiedName) := by
  constructor
  · unfold buildCalls
    rw [hperm.foldl_eq' (fun x hx y hy z => by
      by_cases hxy : x = y
      · rw [hxy]
      · exact applyCall_comm x y
          (fun hpp => hxy (List.inj_on_of_nodup_map hnodup hx hy hpp)) z)]
  · exact createEqFoldl _

/-- C4 witness: two orderings of a concrete two-call history. -/
theorem createFixedOrder_witness :
    (buildCalls "nm" "db" "sc" [FFCall.withComment "c", FFCall.withType "t"]).Create =
      (buildCalls "nm" "db" "sc" [FFCall.withType "t", FFCall.withComment "c"]).Create ∧
    (buildCalls "nm" "db" "sc" [FFCall.withComment "c", FFCall.withType "t"]).Create =
      (clauseList (buildCalls "nm" "db" "sc" [FFCall.withComment "c", FFCall.withType "t"])).foldl
        (· ++ ·) ("CREATE FILE FORMAT " ++
          (buildCalls "nm" "db" "sc" [FFCall.withComment "c", FFCall.withType "t"]).QualifiedName) :=
  createFixedOrder "nm" "db" "sc" [FFCall.withComment "c", FFCall.withType "t"]
    [FFCall.withType "t", FFCall.withComment "c"] (by decide) (by decide)

/-! ## Claim C6 -/

/-- C6 counterexample: the TYPE value is embedded into `Create()` output
raw: with the value backslash-containing value `a\b` the emitted
statement contains the lone backslash even though the shared escape
function would have doubled it, so not every SQL-significant value is
passed through the escape function. -/
theorem typeValueNotEscaped :
    ((FileFormat "nm" "db" "sc").WithType "a\\b").Create =
      "CREATE FILE FORMAT \"db\".\"sc\".\"nm\" TYPE = \"a\\b\"" ∧
    EscapeString "a\\b" ≠ "a\\b" := by
  refine ⟨rfl, ?_⟩
  decide

/-- C6 (amended): the escape function is applied to the comment, the
delimiter, extension, date/time/timestamp format, escape, unenclosed
escape, enclosing and encoding values and to every `NULL_IF` element, but
the type, compression and binary-format values, the name in the SHOW LIKE
filter, and the components of the qualified name are embedded without
escaping. -/
theorem escapingChokePoints (name db schema v : String) (xs : List String)
    (hv : v ≠ "") (hxs : xs ≠ []) :
    ((FileFormat name db schema).WithComment v).Create =
      "CREATE FILE FORMAT " ++ (FileFormat name db schema).QualifiedName ++
        (" COMMENT = \"" ++ EscapeString v ++ "\"") ∧
    ((FileFormat name db schema).WithRecordDelimiter v).Create =
      "CREATE FILE FORMAT " ++ (FileFormat name db schema).QualifiedName ++
        (" RECORD_DELIMITER = \"" ++ EscapeString v ++ "\"") ∧
    ((FileFormat name db schema).WithFieldDelimiter v).Create =
      "CREATE FILE FORMAT " ++ (FileFormat name db schema).QualifiedName ++
        (" FIELD_DELIMITER = \"" ++ EscapeString v ++ "\"") ∧
    ((FileFormat name db schema).WithFileExtension v).Create =
      "CREATE FILE FORMAT " ++ (FileFormat name db schema).QualifiedName ++
        (" FILE_EXTENSION = \"" ++ EscapeString v ++ "\"") ∧
    ((FileFormat name db schema).WithDateFormat v).Create =
      "CREATE FILE FORMAT " ++ (FileFormat name db schema).QualifiedName ++
        (" DATE_FORMAT = \"" ++ EscapeString v ++ "\"") ∧
    ((FileFormat name db schema).WithTimeFormat v).Create =
      "CREATE FILE FORMAT " ++ (FileFormat name db schema).QualifiedName ++
        (" TIME_FORMAT = \"" ++ EscapeString v ++ "\"") ∧
    ((FileFormat name db schema).WithTimestampFormat v).Create =
      "CREATE FILE FORMAT " ++ (FileFormat name db schema).QualifiedName ++
        (" TIMESTAMP_FORMAT = \"" ++ EscapeString v ++ "\"") ∧
    ((FileFormat name db schema).WithEscape v).Create =
      "CREATE FILE FORMAT " ++ (FileFormat name db schema).QualifiedName ++
        (" ESCAPE = \"" ++ EscapeString v ++ "\"") ∧
    ((FileFormat name db schema).WithEscapeUnenclosedField v).Create =
      "CREATE FILE FORMAT " ++ (FileFormat name db schema).QualifiedName ++
        (" ESCAPE_UNENCLOSED_FIELD = \"" ++ EscapeString v ++ "\"") ∧
    ((FileFormat name db schema).WithFieldOptionallyEnclosedBy v).Create =
      "CREATE FILE FORMAT " ++ (FileFormat name db schema).QualifiedName ++
        (" FIELD_OPTIONALLY_ENCLOSED_BY = \"" ++ EscapeString v ++ "\"") ∧
    ((FileFormat name db schema).WithEncoding v).Create =
      "CREATE FILE FORMAT " ++ (FileFormat name db schema).QualifiedName ++
        (" ENCODING = \"" ++ EscapeString v ++ "\"") ∧
    ((FileFormat name db schema).WithNullIf xs).Create =
      "CREATE FILE FORMAT " ++ (FileFormat name db schema).QualifiedName ++
        (" NULL_IF = (" ++ goJoin (xs.map nullIfElem) "," ++ ")") ∧
    ((FileFormat name db schema).WithType v).Create =
      "CREATE FILE FORMAT " ++ (FileFormat name db schema).QualifiedName ++
        (" TYPE = \"" ++ v ++ "\"") ∧
    ((FileFormat name db schema).WithCompression v).Create =
      "CREATE FILE FORMAT " ++ (FileFormat name db schema).QualifiedName ++
        (" COMPRESSION = \"" ++ v ++ "\"") ∧
    ((FileFormat name db schema).WithBinaryFormat v).Create =
      "CREATE FILE FORMAT " ++ (FileFormat name db schema).QualifiedName ++
        (" BINARY_FORMAT = " ++ v) ∧
    (FileFormat name db schema).Show =
      "SHOW FILE FORMATS LIKE \x27" ++ name ++ "\x27 IN DATABASE \"" ++ db ++ "\"" ∧
    (FileFormat name db schema).QualifiedName =
      "\"" ++ db ++ "\".\"" ++ schema ++ "\".\"" ++ name ++ "\"" := by
  refine ⟨?_, ?_, ?_, ?_, ?_, ?_, ?_, ?_, ?_, ?_, ?_, ?_, ?_, ?_, ?_, rfl, rfl⟩ <;>
    simp [FileFormatBuilder.Create, FileFormat, FileFormatBuilder.WithComment,
      FileFormatBuilder.WithRecordDelimiter, FileFormatBuilder.WithFieldDelimiter,
      FileFormatBuilder.WithFileExtension, FileFormatBuilder.WithDateFormat,
      FileFormatBuilder.WithTimeFormat, FileFormatBuilder.WithTimestampFormat,
      FileFormatBuilder.WithEscape, FileFormatBuilder.WithEscapeUnenclosedField,
      FileFormatBuilder.WithFieldOptionallyEnclosedBy, FileFormatBuilder.WithEncoding,
      FileFormatBuilder.WithNullIf, FileFormatBuilder.WithType,
      FileFormatBuilder.WithCompression, FileFormatBuilder.WithBinaryFormat,
      FileFormatBuilder.QualifiedName, hv, List.length_pos, hxs]

/-- C6 witness: the amended statement at concrete values. -/
theorem escapingChokePoints_witness :
    ((FileFormat "nm" "db" "sc").WithComment "x").Create =
      "CREATE FILE FORMAT " ++ (FileFormat "nm" "db" "sc").QualifiedName ++
        (" COMMENT = \"" ++ EscapeString "x" ++ "\"") ∧
    ((FileFormat "nm" "db" "sc").WithType "x").Create =
      "CREATE FILE FORMAT " ++ (FileFormat "nm" "db" "sc").QualifiedName ++
        (" TYPE = \"" ++ "x" ++ "\"") :=
  ⟨(escapingChokePoints "nm" "db" "sc" "x" ["y"] (by decide) (by decide)).1,
   ((escapingChokePoints "nm" "db" "sc" "x" ["y"] (by decide) (by decide)).2.2.2.2.2.2.2.2.2.2.2.2).1⟩

/-! ## Claim C7 -/

/-- The boolean-typed property names of the DESCRIBE switch. -/
def boolDescProps : List String :=
  ["BINARY_AS_TEXT", "TRIM_SPACE", "SKIP_BLANK_LINES",
   "ERROR_ON_COLUMN_COUNT_MISMATCH", "REPLACE_INVALID_CHARACTERS",
   "VALIDATE_UTF8", "EMPTY_FIELD_AS_NULL", "SKIP_BYTE_ORDER_MARK"]

/-- A row whose property is boolean- or integer-typed and whose value
does not parse. -/
def badDescRow (row : descFileFormatRow) : Prop :=
  (row.Property ∈ boolDescProps ∧ goParseBool row.PropertyValue = none) ∨
  (row.Property = "SKIP_HEADER" ∧ goAtoi row.PropertyValue = none)

instance : DecidablePred badDescRow := fun _ => by
  unfold badDescRow
  infer_instance

theorem badDescRow_applies (row : descFileFormatRow) (h : badDescRow row)
    (acc : fileFormatData) : ∃ e, descApplyRow acc row = .error e := by
  rcases h with ⟨hmem, hval⟩ | ⟨hprop, hval⟩
  · simp only [boolDescProps, List.mem_cons, List.not_mem_nil, or_false] at hmem
    rcases hmem with h | h | h | h | h | h | h | h <;>
      · refine ⟨"parsing " ++ row.PropertyValue ++ ": invalid syntax", ?_⟩
        unfold descApplyRow
        rw [h, hval]
        rfl
  · refine ⟨"parsing " ++ row.PropertyValue ++ ": invalid syntax", ?_⟩
    unfold descApplyRow
    rw [hprop, hval]
    rfl

theorem descLoop_bad (rows : List descFileFormatRow)
    (h : ∃ row ∈ rows, badDescRow row) :
    ∀ acc : fileFormatData, ∃ e, descLoop acc rows = (emptyFileFormatData, some e) := by
  induction rows with
  | nil => simp at h
  | cons row rows ih =>
    intro acc
    rcases h with ⟨r, hr, hbad⟩
    rcases List.mem_cons.mp hr with rfl | hmem
    · obtain ⟨e, he⟩ := badDescRow_applies r hbad acc
      exact ⟨e, by simp [descLoop, he]⟩
    · cases happ : descApplyRow acc row with
      | ok acc2 =>
        obtain ⟨e, he⟩ := ih ⟨r, hmem, hbad⟩ acc2
        exact ⟨e, by simp [descLoop, happ, he]⟩
      | error e =>
        exact ⟨e, by simp [descLoop, happ]⟩

/-- C7: whenever the DESCRIBE row set contains a boolean- or
integer-typed row whose value does not parse, `DescFileFormat` returns an
error together with the zero-valued record — never a partially populated
one. -/
theorem descFileFormatAbortsOnParseFailure (rows : List descFileFormatRow)
    (h : ∃ row ∈ rows, badDescRow row) :
    (DescFileFormat rows).1 = emptyFileFormatData ∧
      ∃ e, (DescFileFormat rows).2 = some e := by
  obtain ⟨e, he⟩ := descLoop_bad rows h emptyFileFormatData
  unfold DescFileFormat
  rw [he]
  exact ⟨rfl, e, rfl⟩

/-- C7 witness: a row set whose second row carries an unparsable
boolean. -/
theorem descFileFormatAbortsOnParseFailure_witness :
    (DescFileFormat [⟨"TYPE", "String", "PARQUET", ""⟩,
        ⟨"BINARY_AS_TEXT", "Boolean", "banana", "true"⟩]).1 = emptyFileFormatData ∧
      ∃ e, (DescFileFormat [⟨"TYPE", "String", "PARQUET", ""⟩,
        ⟨"BINARY_AS_TEXT", "Boolean", "banana", "true"⟩]).2 = some e :=
  descFileFormatAbortsOnParseFailure _
    ⟨⟨"BINARY_AS_TEXT", "Boolean", "banana", "true"⟩, by decide, by decide⟩

/-! ## Claim C9 -/

/-- The property names the DESCRIBE switch recognises. -/
def recognizedDescProps : List String :=
  ["TYPE", "COMPRESSION", "BINARY_AS_TEXT", "TRIM_SPACE", "NULL_IF",
   "RECORD_DELIMITER", "FIELD_DELIMITER", "FILE_EXTENSION", "SKIP_HEADER",
   "SKIP_BLANK_LINES", "DATE_FORMAT", "TIME_FORMAT", "TIMESTAMP_FORMAT",
   "BINARY_FORMAT", "ESCAPE", "ESCAPE_UNENCLOSED_FIELD",
   "FIELD_OPTIONALLY_ENCLOSED_BY", "ERROR_ON_COLUMN_COUNT_MISMATCH",
   "REPLACE_INVALID_CHARACTERS", "VALIDATE_UTF8", "EMPTY_FIELD_AS_NULL",
   "SKIP_BYTE_ORDER_MARK", "ENCODING"]

/-- Whether a DESCRIBE row's property is one the parser models. -/
def recognizedRow (row : descFileFormatRow) : Bool :=
  row.Property ∈ recognizedDescProps

theorem unrecognized_skip (row : descFileFormatRow) (h : recognizedRow row = false)
    (acc : fileFormatData) : descApplyRow acc row = .ok acc := by
  unfold descApplyRow
  split <;> simp_all [recognizedRow, recognizedDescProps]

theorem descLoop_filter (rows : List descFileFormatRow) :
    ∀ acc : fileFormatData,
      descLoop acc rows = descLoop acc (rows.filter recognizedRow) := by
  induction rows with
  | nil => intro acc; rfl
  | cons row rows ih =>
    intro acc
    cases hrec : recognizedRow row with
    | true =>
      rw [List.filter_cons_of_pos hrec]
      cases happ : descApplyRow acc row with
      | ok acc2 =>
        simp only [descLoop, happ]
        exact ih acc2
      | error e => simp only [descLoop, happ]
    | false =>
      rw [List.filter_cons_of_neg (by simp [hrec])]
      simp only [descLoop, unrecognized_skip row hrec acc]
      exact ih acc

/-- C9: rows with unrecognised property names leave the result record
unchanged — two row sets that agree after dropping unrecognised rows
produce the same `DescFileFormat` result, so adding any number of
unrecognised rows changes nothing. -/
theorem descFileFormatIgnoresUnrecognized (rows1 rows2 : List descFileFormatRow)
    (h : rows1.filter recognizedRow = rows2.filter recognizedRow) :
    DescFileFormat rows1 = DescFileFormat rows2 := by
  unfold DescFileFormat
  rw [descLoop_filter rows1, descLoop_filter rows2, h]

/-- C9 witness: an unknown property row is invisible to the parser. -/
theorem descFileFormatIgnoresUnrecognized_witness :
    DescFileFormat [⟨"TYPE", "String", "PARQUET", ""⟩,
        ⟨"FUTURE_PROPERTY", "String", "x", "y"⟩] =
      DescFileFormat [⟨"TYPE", "String", "PARQUET", ""⟩] :=
  descFileFormatIgnoresUnrecognized _ _ (by decide)

/-! ## Claim C8 -/

/-- C8: when the persisted identity decodes, the identity is cleared if
and only if the DROP statement executes without error; on execution
failure the resource data is unchanged and the wrapped error is
returned. -/
theorem deleteClearsIdIffDropSucceeds (data : ResourceData)
    (exec : String → Option String) (ffid : fileFormatID)
    (hdec : fileFormatIDFromString data.id = .ok ffid) :
    ((DeleteFileFormat data exec).1.id = "" ↔
      exec (FileFormat ffid.FileFormatName ffid.DatabaseName ffid.SchemaName).Drop = none) ∧
    (∀ e, exec (FileFormat ffid.FileFormatName ffid.DatabaseName ffid.SchemaName).Drop = some e →
      (DeleteFileFormat data exec).1 = data ∧
      (DeleteFileFormat data exec).2 =
        some (wrapErr ("error deleting file format " ++ data.id) e)) ∧
    (exec (FileFormat ffid.FileFormatName ffid.DatabaseName ffid.SchemaName).Drop = none →
      (DeleteFileFormat data exec).1.id = "" ∧ (DeleteFileFormat data exec).2 = none) := by
  have hid : data.id ≠ "" := by
    intro h0
    rw [h0] at hdec
    have hcomp : fileFormatIDFromString "" = .error "1 line per file format" := rfl
    rw [hcomp] at hdec
    exact Except.noConfusion hdec
  cases hexec : exec (FileFormat ffid.FileFormatName ffid.DatabaseName ffid.SchemaName).Drop with
  | none =>
    have hres : DeleteFileFormat data exec = (⟨""⟩, none) := by
      unfold DeleteFileFormat
      rw [hdec]
      simp only [hexec]
    rw [hres]
    exact ⟨⟨fun _ => rfl, fun _ => rfl⟩,
      fun e he => Option.noConfusion he,
      fun _ => ⟨rfl, rfl⟩⟩
  | some e =>
    have hres : DeleteFileFormat data exec =
        (data, some (wrapErr ("error deleting file format " ++ data.id) e)) := by
      unfold DeleteFileFormat
      rw [hdec]
      simp only [hexec]
    rw [hres]
    refine ⟨⟨fun h => absurd h hid, fun h => Option.noConfusion h⟩,
      fun e2 he2 => ?_, fun h => Option.noConfusion h⟩
    injection he2 with hee
    subst hee
    exact ⟨rfl, rfl⟩

/-- C8 witness: a decodable identity with a failing and a succeeding
handle. -/
theorem deleteClearsIdIffDropSucceeds_witness :
    ((DeleteFileFormat ⟨"db|sc|nm"⟩ (fun _ => none)).1.id = "" ↔
      (fun _ => none : String → Option String)
        (FileFormat "nm" "db" "sc").Drop = none) ∧
    (∀ e, (fun _ => none : String → Option String) (FileFormat "nm" "db" "sc").Drop = some e →
      (DeleteFileFormat ⟨"db|sc|nm"⟩ (fun _ => none)).1 = ⟨"db|sc|nm"⟩ ∧
      (DeleteFileFormat ⟨"db|sc|nm"⟩ (fun _ => none)).2 =
        some (wrapErr ("error deleting file format " ++ "db|sc|nm") e)) ∧
    ((fun _ => none : String → Option String) (FileFormat "nm" "db" "sc").Drop = none →
      (DeleteFileFormat ⟨"db|sc|nm"⟩ (fun _ => none)).1.id = "" ∧
      (DeleteFileFormat ⟨"db|sc|nm"⟩ (fun _ => none)).2 = none) :=
  deleteClearsIdIffDropSucceeds ⟨"db|sc|nm"⟩ (fun _ => none) ⟨"db", "sc", "nm"⟩ rfl

/-! ## Claim C5 -/

/-- C5: at the DESCRIBE row value `["\\N","NULL",""]` the decoder of the
code yields the three elements backslash-N-quote, quote-NULL-quote and
the empty string — the interior double quotes survive because
`strings.Trim` only strips characters at the two ends of the whole
bracket literal — whereas the claimed decoding is backslash-N, `NULL`,
empty.  The empty bracket list `[]` does decode to the empty list. -/
theorem descNullIfRowDivergence :
    DescFileFormat [⟨"NULL_IF", "List", "[\"\\\\N\",\"NULL\",\"\"]", "[\"\\\\N\"]"⟩] =
      ({ emptyFileFormatData with NullIf := ["\\N\"", "\"NULL\"", ""] }, none) ∧
    (["\\N\"", "\"NULL\"", ""] : List String) ≠ ["\\N", "NULL", ""] ∧
    descNullIfValue "[]" = [] := by
  refine ⟨rfl, by decide, rfl⟩

/-! ## Claim C1 -/

/-- C1 counterexample: the triple whose name carries a trailing space —
containing no delimiter at all — does not round-trip: `strings.TrimSpace`
eats the trailing space of the unquoted last field, so decoding the
encoded identity returns the name without its trailing space. -/
theorem idRoundTripFalse :
    fileFormatIDFromString (fileFormatIDString ⟨"db", "schema", "c "⟩) =
      .ok ⟨"db", "schema", "c"⟩ ∧
    (⟨"db", "schema", "c"⟩ : fileFormatID) ≠ ⟨"db", "schema", "c "⟩ := by
  refine ⟨rfl, by decide⟩

/-- A character that needs no CSV treatment: not the separator, not a
quote, not CR, not LF. -/
def csvPlainChar (c : Char) : Bool :=
  ¬ (c = '|' ∨ c = '"' ∨ c = '\r' ∨ c = '\n')

/-- A field the CSV writer embeds verbatim: plain characters only, not
the PostgreSQL end-of-data marker, not beginning with white space. -/
def csvSafeField (f : List Char) : Prop :=
  (∀ c ∈ f, csvPlainChar c = true) ∧ f ≠ ['\\', '.'] ∧
    (∀ c, f.head? = some c → isGoSpace c = false)

theorem fieldNeedsQuotes_safe (f : List Char) (h : csvSafeField f) :
    fieldNeedsQuotes '|' f = false := by
  obtain ⟨hplain, hpg, hhead⟩ := h
  have hany : (f.any fun c => decide (c = '|' ∨ c = '"' ∨ c = '\r' ∨ c = '\n')) = false := by
    rw [List.any_eq_false]
    intro c hc
    have := hplain c hc
    simp only [csvPlainChar] at this
    simpa using this
  cases f with
  | nil => rfl
  | cons c rest =>
    have hc0 : (c :: rest) ≠ ([] : List Char) := by simp
    unfold fieldNeedsQuotes
    rw [if_neg hc0, if_neg hpg, if_neg (by rw [hany]; simp)]
    exact hhead c rfl

theorem csvWriteField_safe (f : List Char) (h : csvSafeField f) :
    csvWriteField '|' f = f := by
  unfold csvWriteField
  rw [fieldNeedsQuotes_safe f h]
  rfl

theorem csvWriteRecord_safe (d s n : List Char)
    (hd : csvSafeField d) (hs : csvSafeField s) (hn : csvSafeField n) :
    csvWriteRecord '|' [d, s, n] = d ++ '|' :: (s ++ '|' :: (n ++ ['\n'])) := by
  show csvWriteField '|' d ++ '|' :: (csvWriteField '|' s ++ '|' :: (csvWriteField '|' n ++ ['\n'])) = _
  rw [csvWriteField_safe d hd, csvWriteField_safe s hs, csvWriteField_safe n hn]

theorem dropWhile_eq_self_of_head (p : Char → Bool) (L : List Char)
    (h : ∀ c, L.head? = some c → p c = false) : L.dropWhile p = L := by
  cases L with
  | nil => rfl
  | cons c rest => rw [List.dropWhile_cons_of_neg (by simp [h c rfl])]

theorem goTrimSpaceList_newline (L : List Char) (hL : L ≠ [])
    (hhead : ∀ c, L.head? = some c → isGoSpace c = false)
    (hlast : ∀ c, L.getLast? = some c → isGoSpace c = false) :
    goTrimSpaceList (L ++ ['\n']) = L := by
  unfold goTrimSpaceList
  have h1 : List.dropWhile isGoSpace (L ++ ['\n']) = L ++ ['\n'] := by
    apply dropWhile_eq_self_of_head
    intro c hc
    rw [List.head?_append] at hc
    cases hL2 : L.head? with
    | none =>
      cases L with
      | nil => exact absurd rfl hL
      | cons a l => simp at hL2
    | some c0 =>
      rw [hL2] at hc
      simp only [Option.or_some, Option.some.injEq] at hc
      subst hc
      exact hhead c0 hL2
  rw [h1, List.reverse_append, List.reverse_cons, List.reverse_nil, List.nil_append,
    List.singleton_append, List.dropWhile_cons_of_pos (by decide)]
  have h2 : List.dropWhile isGoSpace L.reverse = L.reverse := by
    apply dropWhile_eq_self_of_head
    intro c hc
    rw [List.head?_reverse] at hc
    exact hlast c hc
  rw [h2, List.reverse_reverse]

theorem normCRLF_no_cr : ∀ L : List Char, (∀ c ∈ L, c ≠ '\r') → normCRLF L = L
  | [], _ => rfl
  | [c], _ => rfl
  | c1 :: c2 :: rest, h => by
    have h1 : c1 ≠ '\r' := h c1 (by simp)
    have hrest : ∀ c ∈ c2 :: rest, c ≠ '\r' := fun c hc =>
      h c (List.mem_cons_of_mem _ hc)
    unfold normCRLF
    rw [if_neg (fun hand => h1 hand.1), normCRLF_no_cr (c2 :: rest) hrest]

theorem dropFinalCR_no_cr (L : List Char)
    (h : ∀ c, L.getLast? = some c → c ≠ '\r') : dropFinalCR L = L := by
  unfold dropFinalCR
  rw [if_neg (fun hc => h '\r' hc rfl)]

theorem plainChar_fields (c : Char) (hc : csvPlainChar c = true) :
    c ≠ '|' ∧ c ≠ '"' ∧ c ≠ '\r' ∧ c ≠ '\n' := by
  simp only [csvPlainChar] at hc
  simpa using hc

theorem csvRun_unquoted (cs : List Char) (h : ∀ c ∈ cs, csvPlainChar c = true) :
    ∀ (cur : List Char) (fs : List (List Char)) (rs : List (List (List Char))),
      cs.foldl (csvStep '|') (.ok ⟨cur, fs, rs, .unquoted⟩) =
        .ok ⟨cur ++ cs, fs, rs, .unquoted⟩ := by
  induction cs with
  | nil => intro cur fs rs; simp
  | cons c cs ih =>
    intro cur fs rs
    obtain ⟨hc1, hc2, _, hc4⟩ := plainChar_fields c (h c (List.mem_cons_self _ _))
    have hrest : ∀ x ∈ cs, csvPlainChar x = true := fun x hx =>
      h x (List.mem_cons_of_mem _ hx)
    rw [List.foldl_cons]
    have hstep : csvStep '|' (.ok ⟨cur, fs, rs, .unquoted⟩) c =
        .ok ⟨cur ++ [c], fs, rs, .unquoted⟩ := by
      simp [csvStep, csvStepChar, hc1, hc2, hc4]
    rw [hstep, ih hrest]
    simp

theorem csvStep_fieldStart_plain (c : Char) (hc : csvPlainChar c = true)
    (fs : List (List Char)) (rs : List (List (List Char))) (m : CsvMode)
    (hm : m = .fieldStart ∨ m = .recStart) :
    csvStep '|' (.ok ⟨[], fs, rs, m⟩) c = .ok ⟨[c], fs, rs, .unquoted⟩ := by
  obtain ⟨hc1, hc2, _, hc4⟩ := plainChar_fields c hc
  rcases hm with rfl | rfl <;>
    simp [csvStep, csvStepChar, csvFieldStartChar, hc1, hc2, hc4]

theorem csvStep_fieldStart_sep (fs : List (List Char)) (rs : List (List (List Char)))
    (m : CsvMode) (hm : m = .fieldStart ∨ m = .recStart) :
    csvStep '|' (.ok ⟨[], fs, rs, m⟩) '|' = .ok ⟨[], fs ++ [[]], rs, .fieldStart⟩ := by
  rcases hm with rfl | rfl <;>
    simp [csvStep, csvStepChar, csvFieldStartChar]

theorem csvRun_field_sep (f : List Char) (hf : ∀ c ∈ f, csvPlainChar c = true)
    (t : List Char) (fs : List (List Char)) (rs : List (List (List Char)))
    (m : CsvMode) (hm : m = .fieldStart ∨ m = .recStart) :
    (f ++ '|' :: t).foldl (csvStep '|') (.ok ⟨[], fs, rs, m⟩) =
      t.foldl (csvStep '|') (.ok ⟨[], fs ++ [f], rs, .fieldStart⟩) := by
  cases f with
  | nil =>
    rw [List.nil_append, List.foldl_cons, csvStep_fieldStart_sep fs rs m hm]
  | cons c f2 =>
    have hc := hf c (List.mem_cons_self _ _)
    have hf2 : ∀ x ∈ f2, csvPlainChar x = true := fun x hx =>
      hf x (List.mem_cons_of_mem _ hx)
    rw [List.cons_append, List.foldl_cons, csvStep_fieldStart_plain c hc fs rs m hm,
      List.foldl_append, csvRun_unquoted f2 hf2 [c] fs rs, List.foldl_cons]
    have hsep : csvStep '|' (.ok ⟨[c] ++ f2, fs, rs, .unquoted⟩) '|' =
        .ok ⟨[], fs ++ [[c] ++ f2], rs, .fieldStart⟩ := by
      simp [csvStep, csvStepChar]
    rw [hsep]
    rfl

theorem csvRun_lastField (n : List Char) (hn : ∀ c ∈ n, csvPlainChar c = true)
    (fs : List (List Char)) (rs : List (List (List Char))) :
    ∃ st, n.foldl (csvStep '|') (.ok ⟨[], fs, rs, .fieldStart⟩) = .ok st ∧
      csvFinish st = .ok (rs ++ [fs ++ [n]]) := by
  cases n with
  | nil => exact ⟨⟨[], fs, rs, .fieldStart⟩, rfl, rfl⟩
  | cons c n2 =>
    have hc := hn c (List.mem_cons_self _ _)
    have hn2 : ∀ x ∈ n2, csvPlainChar x = true := fun x hx =>
      hn x (List.mem_cons_of_mem _ hx)
    refine ⟨⟨c :: n2, fs, rs, .unquoted⟩, ?_, rfl⟩
    rw [List.foldl_cons, csvStep_fieldStart_plain c hc fs rs .fieldStart (Or.inl rfl),
      csvRun_unquoted n2 hn2 [c] fs rs]
    rfl

theorem getLast?_append_cons (l1 l2 : List Char) (a : Char) :
    (l1 ++ a :: l2).getLast? = (a :: l2).getLast? := by
  rw [List.getLast?_append]
  cases hx : (a :: l2).getLast? with
  | none => simp at hx
  | some x => simp

/-- C1 (amended): for every identifier triple whose components contain
none of the characters the CSV writer quotes for (the pipe delimiter, a
double quote, CR, LF), do not begin with a white-space character and are
not the end-of-data marker, and whose name does not end in a white-space
character, decoding the encoded composite ID returns exactly the
original triple. -/
theorem idRoundTripAmended (id : fileFormatID)
    (hd : csvSafeField id.DatabaseName.data)
    (hs : csvSafeField id.SchemaName.data)
    (hn : csvSafeField id.FileFormatName.data)
    (hlast : ∀ c, id.FileFormatName.data.getLast? = some c → isGoSpace c = false) :
    fileFormatIDFromString (fileFormatIDString id) = .ok id := by
  obtain ⟨⟨d⟩, ⟨s⟩, ⟨n⟩⟩ := id
  unfold fileFormatIDString
  rw [show stageIDDelimiter = '|' from rfl, csvWriteRecord_safe d s n hd hs hn]
  have hsplit : d ++ '|' :: (s ++ '|' :: (n ++ ['\n'])) =
      (d ++ '|' :: (s ++ '|' :: n)) ++ ['\n'] := by simp
  rw [hsplit]
  have hL : d ++ '|' :: (s ++ '|' :: n) ≠ [] := by cases d <;> simp
  have hheadL : ∀ c, (d ++ '|' :: (s ++ '|' :: n)).head? = some c →
      isGoSpace c = false := by
    intro c hc
    cases d with
    | nil =>
      simp only [List.nil_append, List.head?_cons, Option.some.injEq] at hc
      subst hc
      decide
    | cons a d2 =>
      simp only [List.cons_append, List.head?_cons, Option.some.injEq] at hc
      subst hc
      exact hd.2.2 a rfl
  have hlastL : ∀ c, (d ++ '|' :: (s ++ '|' :: n)).getLast? = some c →
      isGoSpace c = false := by
    intro c hc
    rw [getLast?_append_cons] at hc
    have hshape : ('|' :: (s ++ '|' :: n)) = ('|' :: s) ++ '|' :: n := by simp
    rw [hshape, getLast?_append_cons] at hc
    cases n with
    | nil =>
      simp only [List.getLast?_singleton, Option.some.injEq] at hc
      subst hc
      decide
    | cons b n2 =>
      rw [List.getLast?_cons_cons] at hc
      exact hlast c hc
  rw [goTrimSpaceList_newline _ hL hheadL hlastL]
  have hnocr : ∀ c ∈ d ++ '|' :: (s ++ '|' :: n), c ≠ '\r' := by
    intro c hc
    rcases List.mem_append.mp hc with hcd | hcrest
    · exact (plainChar_fields c (hd.1 c hcd)).2.2.1
    · rcases List.mem_cons.mp hcrest with rfl | hcrest2
      · decide
      · rcases List.mem_append.mp hcrest2 with hcs | hcrest3
        · exact (plainChar_fields c (hs.1 c hcs)).2.2.1
        · rcases List.mem_cons.mp hcrest3 with rfl | hcn
          · decide
          · exact (plainChar_fields c (hn.1 c hcn)).2.2.1
  have hread : csvReadAll '|' (d ++ '|' :: (s ++ '|' :: n)) = .ok [[d, s, n]] := by
    unfold csvReadAll
    rw [normCRLF_no_cr _ hnocr,
      dropFinalCR_no_cr _ (fun c hc => hnocr c (List.mem_of_getLast?_eq_some hc))]
    simp only [csvInitState]
    rw [csvRun_field_sep d hd.1 (s ++ '|' :: n) [] [] .recStart (Or.inr rfl)]
    rw [csvRun_field_sep s hs.1 n ([] ++ [d]) [] .fieldStart (Or.inl rfl)]
    obtain ⟨st, hst, hfin⟩ := csvRun_lastField n hn.1 (([] ++ [d]) ++ [s]) []
    rw [hst]
    simp only [hfin]
    simp [csvCheckCounts]
  unfold fileFormatIDFromString
  rw [show (String.mk (d ++ '|' :: (s ++ '|' :: n))).data =
      d ++ '|' :: (s ++ '|' :: n) from rfl]
  rw [show fileFormatIDDelimiter = '|' from rfl, hread]
  rfl

/-- C1 witness: the amended round trip at a concrete safe triple. -/
theorem idRoundTripAmended_witness :
    fileFormatIDFromString (fileFormatIDString ⟨"db", "schema", "name"⟩) =
      .ok ⟨"db", "schema", "name"⟩ :=
  idRoundTripAmended ⟨"db", "schema", "name"⟩
    ⟨by decide, by decide, by decide⟩ ⟨by decide, by decide, by decide⟩
    ⟨by decide, by decide, by decide⟩ (by decide)
